import Mathlib

/-!
# Verification of `backend/pdf_extractor.py`

A shallow embedding of the PDF extraction pipeline in
`backend/pdf_extractor.py` of the Book.audio repository, together with
theorems settling the specification claims about it.

Modelling conventions:
* PyMuPDF (`fitz`) objects are modelled by plain data: a document is a list
  of page slots, where `none` models a page whose `load_page`/`get_text`
  raises (the per-page hard fault) and `some p` carries the data the source
  reads from a usable page (`renderOk` models whether the low-resolution
  `get_pixmap` probe succeeds, `rawText` the `get_text("text", sort=True)`
  result, `images` the `get_images` list).
* Python floats are modelled by `ℚ`; machine strings by `String`; byte
  payloads by `List Nat`.
* The filesystem visible to the asset cache is modelled by the list of
  existing file paths; `Path.write_bytes` always succeeds and
  `Path.unlink(missing_ok=True)` always succeeds (in the source a failing
  unlink is swallowed by the `except OSError: pass`).
* Exception-raising code is modelled by `Option`/explicit flags; a function
  the source guarantees never to raise is modelled by a total Lean function.
-/

namespace PdfExtractor

/-! ## Python string primitives

The source leans on three Python `str` operations.  They are modelled by
structurally recursive functions over the character list of a `String`, so
that every concrete computation reduces inside the kernel.  Python's notion
of whitespace is modelled by `Char.isWhitespace`. -/

/-- Python `str.strip()`: drop leading and trailing whitespace. -/
def pyStrip (s : String) : String :=
  String.mk (((s.data.dropWhile Char.isWhitespace).reverse.dropWhile
    Char.isWhitespace).reverse)

/-- Python `str.split()` with no arguments: the maximal runs of
non-whitespace characters, in order. -/
def pyWords (s : String) : List String :=
  ((s.data.splitOnP Char.isWhitespace).filter (fun w => ¬w.isEmpty)).map String.mk

/-- Python `c in s` for a single character `c`. -/
def pyContains (s : String) (c : Char) : Bool :=
  s.data.contains c

/-- The `ValidationStatus` enum of the source. -/
inductive ValidationStatus where
  | valid
  | warning
  | error
deriving DecidableEq

/-- The `IssueSeverity` enum of the source. -/
inductive IssueSeverity where
  | info
  | warning
  | error
deriving DecidableEq

/-- The `ValidationIssue` dataclass of the source. -/
structure ValidationIssue where
  page : Nat
  issue_type : String
  message : String
  severity : IssueSeverity
deriving DecidableEq

/-- The `PageValidation` dataclass of the source (the spec's DocumentValidation). -/
structure PageValidation where
  is_valid : Bool
  total_pages : Nat
  validated_pages : Nat
  issues : List ValidationIssue
deriving DecidableEq

/-- The `PageImage` dataclass of the source. -/
structure PageImage where
  id : String
  url : String
  width : Option Nat
  height : Option Nat
  content_type : String
deriving DecidableEq

/-- The `PageMetadata` dataclass of the source; `reading_time` defaults to
`None` in the source, modelled as `Option ℚ`. -/
structure PageMetadata where
  word_count : Nat
  char_count : Nat
  has_images : Bool
  reading_time : Option ℚ
deriving DecidableEq

/-- The `PageContent` dataclass of the source. -/
structure PageContent where
  number : Nat
  text : String
  images : List PageImage
  metadata : Option PageMetadata
  validation_status : ValidationStatus
deriving DecidableEq

/-- The `PageContent.has_content` property: `bool(self.text.strip() or self.images)`. -/
def PageContent.has_content (p : PageContent) : Bool :=
  (pyStrip p.text != "") || !p.images.isEmpty

/-- The `PDFExtractionResult` dataclass of the source.  The document-metadata
dictionary (a straight field-by-field copy of `doc.metadata`, lines
272-284) is not involved in any claim and is omitted. -/
structure PDFExtractionResult where
  pages : List PageContent
  page_count : Nat
  validation : PageValidation
deriving DecidableEq

/-! ## The asset cache (`PDFAssetManager`) -/

/-- The `{"path": ..., "content_type": ...}` dictionary stored per asset. -/
structure AssetRecord where
  path : String
  content_type : String
deriving DecidableEq

/-- State of a `PDFAssetManager` together with the filesystem it touches.
`registry` models the `OrderedDict`: the head is the least recently used
entry (the one `popitem(last=False)` removes), the last element the most
recently used.  `fs` is the set of file paths currently existing. -/
structure AMState where
  base_dir : String
  max_items : Nat
  registry : List (String × AssetRecord)
  fs : List String
deriving DecidableEq

/-- The `Path.write_bytes`: afterwards the file exists (payload content is not
tracked; only existence matters to the claims). -/
def fsWrite (path : String) (fs : List String) : List String :=
  if path ∈ fs then fs else path :: fs

/-- The `Path.unlink(missing_ok=True)`: removes the file if present. -/
def fsUnlink (path : String) (fs : List String) : List String :=
  fs.filter (fun q => q ≠ path)

/-- The `OrderedDict` assignment to a key: an existing key keeps its position
and gets the new value, a new key is appended at the most-recently-used end. -/
def odSet (k : String) (v : AssetRecord) (l : List (String × AssetRecord)) :
    List (String × AssetRecord) :=
  if (l.lookup k).isSome then
    l.map (fun p => if p.1 = k then (k, v) else p)
  else
    l ++ [(k, v)]

/-- The `OrderedDict.move_to_end(k)` (only ever called on a present key in the
source; on an absent key the model leaves the dict unchanged). -/
def odMoveToEnd (k : String) (l : List (String × AssetRecord)) :
    List (String × AssetRecord) :=
  match l.lookup k with
  | some v => l.filter (fun p => p.1 ≠ k) ++ [(k, v)]
  | none => l

/-- The `PDFAssetManager._evict_if_needed`: while the registry holds more than
`max_items` entries, pop the least-recently-used one and delete its backing
file. -/
def evictLoop (max_items : Nat) :
    List (String × AssetRecord) → List String →
      List (String × AssetRecord) × List String
  | [], fs => ([], fs)
  | (k, v) :: rest, fs =>
    if rest.length + 1 > max_items then
      evictLoop max_items rest (fsUnlink v.path fs)
    else
      ((k, v) :: rest, fs)

/-- The `PDFAssetManager.register`: write the bytes, insert/refresh the entry at
the most-recently-used position, evict while over capacity, return the path. -/
def AMState.register (am : AMState) (image_id : String) (_data : List Nat)
    (_extension : String) (content_type : String) : String × AMState :=
  let path := am.base_dir ++ "/" ++ image_id
  let pr := evictLoop am.max_items
    (odMoveToEnd image_id (odSet image_id (AssetRecord.mk path content_type) am.registry))
    (fsWrite path am.fs)
  (path, AMState.mk am.base_dir am.max_items pr.1 pr.2)

/-- The `PDFAssetManager.get`: on a hit refresh recency and return the entry, on
a miss return `none` without mutating anything. -/
def AMState.get (am : AMState) (image_id : String) :
    Option AssetRecord × AMState :=
  match am.registry.lookup image_id with
  | some v =>
    (some v, AMState.mk am.base_dir am.max_items (odMoveToEnd image_id am.registry) am.fs)
  | none => (none, am)

/-! ## The fitz (PyMuPDF) document model -/

/-- One entry of `page.get_images(full=True)` together with the behaviour of
`doc.extract_image` on its xref: `extractOk = false` models
`extract_image` raising (caught per image), `data` the `"image"` bytes,
`ext` the `"ext"` entry (`""` models a missing/falsy value), `width` and
`height` the optional dimensions. -/
structure FitzImage where
  extractOk : Bool
  data : List Nat
  ext : String
  width : Option Nat
  height : Option Nat
deriving DecidableEq

/-- A usable page: `renderOk` models whether the low-resolution
`get_pixmap` corruption probe succeeds, `rawText` the
`get_text("text", sort=True)` result before stripping, `images` the
`get_images` list. -/
structure FitzPage where
  renderOk : Bool
  rawText : String
  images : List FitzImage
deriving DecidableEq

/-- An opened document: slot `i` is `none` when `load_page(i)` (or the
immediately following `get_text`) raises, and `some p` otherwise.
`doc.page_count` is the number of slots. -/
structure FitzDoc where
  slots : List (Option FitzPage)
deriving DecidableEq

/-- The `doc.page_count`. -/
def FitzDoc.page_count (d : FitzDoc) : Nat :=
  d.slots.length

/-! ## The extractor (`PDFExtractor`) -/

/-- The `PDFExtractor.AVERAGE_READING_SPEED` (words per minute). -/
def AVERAGE_READING_SPEED : ℚ := 200

/-- The Unicode replacement character `'�'` the encoding check looks for. -/
def replacementChar : Char := '�'

/-- A slice of the `mimetypes.types_map` table used by
`mimetypes.types_map.get(f-string of the dotted ext, "image/png")`; the table itself is a
Python standard-library constant, of which only image entries are ever hit. -/
def typesMap : List (String × String) :=
  [(".png", "image/png"), (".jpg", "image/jpeg"), (".jpeg", "image/jpeg"),
   (".gif", "image/gif"), (".bmp", "image/bmp"), (".tiff", "image/tiff")]

/-- The `mimetypes.types_map.get(f-string of the dotted ext, "image/png")`. -/
def guessType (ext : String) : String :=
  (typesMap.lookup ("." ++ ext)).getD "image/png"

/-- Models `hashlib.md5(pdf_path.encode()).hexdigest()`, the default token
when the caller supplies none.  The digest is a Python standard-library
primitive; only its determinism in the path matters to the pipeline, so it
is modelled by a simple deterministic fold rendered in hex. -/
def md5Hex (s : String) : String :=
  String.mk (Nat.toDigits 16 (s.data.foldl (fun a c => (a * 131 + c.toNat) % (2 ^ 128)) 7))

/-- The `PDFExtractor._validate_page(page, page_number, text)`.  The `try` body
runs the render probe first; any render failure is the modelled exception
path, classifying the page ERROR/"corrupt" (the exception text appended to
the message in the source is not modelled).  Otherwise the replacement
character gives WARNING/"encoding", then an empty text with no images gives
WARNING/"missing", otherwise the page is VALID with no issue. -/
def validate_page (page : FitzPage) (page_number : Nat) (text : String) :
    ValidationStatus × Option ValidationIssue :=
  if page.renderOk then
    if pyContains text replacementChar then
      (ValidationStatus.warning, some (ValidationIssue.mk page_number "encoding"
        ("Page " ++ toString page_number ++ " may have encoding issues")
        IssueSeverity.warning))
    else if (pyStrip text == "") && page.images.isEmpty then
      (ValidationStatus.warning, some (ValidationIssue.mk page_number "missing"
        ("Page " ++ toString page_number ++ " appears to be empty")
        IssueSeverity.warning))
    else
      (ValidationStatus.valid, none)
  else
    (ValidationStatus.error, some (ValidationIssue.mk page_number "corrupt"
      ("Page " ++ toString page_number ++ " validation failed")
      IssueSeverity.error))

/-- The loop body of `PDFExtractor.validate_document`, returning the issue
list and the `validated_count` accumulated from page index `i` on.  A `none`
slot models the `except` branch: an ERROR/"corrupt" issue is recorded and
the page is not counted. -/
def validateLoop : Nat → List (Option FitzPage) → List ValidationIssue × Nat
  | _, [] => ([], 0)
  | i, none :: rest =>
    let r := validateLoop (i + 1) rest
    (ValidationIssue.mk (i + 1) "corrupt"
      ("Failed to load page " ++ toString (i + 1)) IssueSeverity.error :: r.1,
     r.2)
  | i, some page :: rest =>
    let sv := validate_page page (i + 1) (pyStrip page.rawText)
    let r := validateLoop (i + 1) rest
    ((match sv.2 with
      | some issue => issue :: r.1
      | none => r.1),
     if sv.1 = ValidationStatus.error then r.2 else r.2 + 1)

/-- The `PDFExtractor.validate_document(doc)`. -/
def validate_document (doc : FitzDoc) : PageValidation :=
  let r := validateLoop 0 doc.slots
  PageValidation.mk
    (!(r.1.any (fun issue => issue.severity == IssueSeverity.error)) &&
      (r.2 == doc.slots.length))
    doc.slots.length r.2 r.1

/-- The `PDFExtractor._calculate_page_metadata(text, has_images)`. -/
def calculate_page_metadata (text : String) (has_images : Bool) : PageMetadata :=
  let word_count := (pyWords text).length
  let char_count := text.length
  let reading_time : ℚ :=
    if word_count > 0 then ((word_count : ℚ) / AVERAGE_READING_SPEED) * 60 else 0
  PageMetadata.mk word_count char_count has_images (some reading_time)

/-- Whether `doc.load_page(i)` succeeds: slot `i` exists and is not a
hard-faulting page. -/
def slotLoads (doc : FitzDoc) (i : Nat) : Bool :=
  (doc.slots.getD i none).isSome

/-- The `PDFExtractor.get_page_count(pdf_path)`.  The argument is `none` when
`fitz.open` raises; totality of this function models that the source method
never raises (every failure is converted into a `(0, False)` or an
unreliable count). -/
def get_page_count (file : Option FitzDoc) : Nat × Bool :=
  match file with
  | none => (0, false)
  | some doc =>
    let page_count := doc.slots.length
    let is_reliable :=
      if page_count > 0 then
        slotLoads doc 0 &&
          (if page_count > 1 then slotLoads doc (page_count - 1) else true)
      else false
    (page_count, is_reliable)

/-- The image loop of `PDFExtractor.extract` (lines 296-321): enumerate the
page's images from position `image_pos`, skipping an image whose
`extract_image` raises or whose byte payload is empty, registering every
kept image in the asset cache, and collecting its `PageImage` record.  The
path returned by `register` is discarded, as in the source. -/
def processImages (file_token : String) (page_number : Nat) :
    Nat → List FitzImage → AMState → List PageImage × AMState
  | _, [], am => ([], am)
  | image_pos, img :: rest, am =>
    if img.extractOk then
      if img.data.isEmpty then
        processImages file_token page_number (image_pos + 1) rest am
      else
        let ext := if img.ext == "" then "png" else img.ext
        let guessed_type := guessType ext
        let image_id := file_token ++ "_p" ++ toString page_number ++ "_" ++
          toString image_pos ++ "." ++ ext
        let am2 := (am.register image_id img.data ext guessed_type).2
        let r := processImages file_token page_number (image_pos + 1) rest am2
        (PageImage.mk image_id ("/api/convert/file/image/" ++ image_id)
          img.width img.height guessed_type :: r.1, r.2)
    else
      processImages file_token page_number (image_pos + 1) rest am

/-- The image list `processImages` produces, which does not depend on the
cache state (`register`'s return value is discarded by the source). -/
def pureImages (file_token : String) (page_number : Nat) :
    Nat → List FitzImage → List PageImage
  | _, [] => []
  | image_pos, img :: rest =>
    if img.extractOk then
      if img.data.isEmpty then
        pureImages file_token page_number (image_pos + 1) rest
      else
        let ext := if img.ext == "" then "png" else img.ext
        let guessed_type := guessType ext
        let image_id := file_token ++ "_p" ++ toString page_number ++ "_" ++
          toString image_pos ++ "." ++ ext
        PageImage.mk image_id ("/api/convert/file/image/" ++ image_id)
          img.width img.height guessed_type ::
          pureImages file_token page_number (image_pos + 1) rest
    else
      pureImages file_token page_number (image_pos + 1) rest

/-- The page appended by the per-page `except` branch of
`PDFExtractor.extract` (lines 336-342): empty text, no images, zero counts,
`reading_time` left at its `None` default, ERROR status. -/
def errorPageContent (number : Nat) : PageContent :=
  PageContent.mk number "" [] (some (PageMetadata.mk 0 0 false none))
    ValidationStatus.error

/-- The page `PDFExtractor.extract` builds for slot `page_index` (0-based). -/
def buildPage (file_token : String) (page_index : Nat) :
    Option FitzPage → PageContent
  | none => errorPageContent (page_index + 1)
  | some page =>
    let text := pyStrip page.rawText
    let sv := validate_page page (page_index + 1) text
    let images := pureImages file_token (page_index + 1) 0 page.images
    PageContent.mk (page_index + 1) text images
      (some (calculate_page_metadata text (!images.isEmpty))) sv.1

/-- The page loop of `PDFExtractor.extract` (lines 286-343), threading the
asset-cache state. -/
def extractLoop (file_token : String) :
    Nat → List (Option FitzPage) → AMState → List PageContent × AMState
  | _, [], am => ([], am)
  | page_index, none :: rest, am =>
    let r := extractLoop file_token (page_index + 1) rest am
    (errorPageContent (page_index + 1) :: r.1, r.2)
  | page_index, some page :: rest, am =>
    let text := pyStrip page.rawText
    let sv := validate_page page (page_index + 1) text
    let ir := processImages file_token (page_index + 1) 0 page.images am
    let page_metadata := calculate_page_metadata text (!ir.1.isEmpty)
    let r := extractLoop file_token (page_index + 1) rest ir.2
    (PageContent.mk (page_index + 1) text ir.1 (some page_metadata) sv.1 :: r.1,
     r.2)

/-- The `PDFExtractor.extract(pdf_path, token, validate)` on a successfully
opened document `doc` (an open failure raises in the source before any of
this runs), also returning the final asset-cache state. -/
def extract (pdf_path : String) (doc : FitzDoc) (token : Option String)
    (validate : Bool) (am : AMState) : PDFExtractionResult × AMState :=
  let file_token := token.getD (md5Hex pdf_path)
  let validation :=
    if validate then validate_document doc
    else PageValidation.mk true doc.slots.length doc.slots.length []
  let pr := extractLoop file_token 0 doc.slots am
  (PDFExtractionResult.mk pr.1 doc.slots.length validation, pr.2)

/-- The pure page list `extractLoop` produces; the cache state only flows
through `register`, whose return value the source discards, so the pages do
not depend on it. -/
def pagesPure (file_token : String) :
    Nat → List (Option FitzPage) → List PageContent
  | _, [] => []
  | page_index, s :: rest =>
    buildPage file_token page_index s :: pagesPure file_token (page_index + 1) rest

/-- The per-slot classification used by the document-level aggregation
claim: a page whose document-level load raises is classified ERROR,
otherwise the page keeps its `_validate_page` status. -/
def slotStatus (page_index : Nat) : Option FitzPage → ValidationStatus
  | none => ValidationStatus.error
  | some page => (validate_page page (page_index + 1) (pyStrip page.rawText)).1

/-- Number of slots from index `i` on that are not classified ERROR. -/
def countNonError : Nat → List (Option FitzPage) → Nat
  | _, [] => 0
  | i, s :: rest =>
    (if slotStatus i s ≠ ValidationStatus.error then 1 else 0) +
      countNonError (i + 1) rest

/-! ### Lemmas about the loops -/

lemma processImages_fst (ft : String) (n : Nat) :
    ∀ (imgs : List FitzImage) (pos : Nat) (am : AMState),
      (processImages ft n pos imgs am).1 = pureImages ft n pos imgs := by
  intro imgs
  induction imgs with
  | nil => intro pos am; rfl
  | cons img rest ih =>
    intro pos am
    cases hok : img.extractOk with
    | false => simp [processImages, pureImages, hok, ih]
    | true =>
      cases hemp : img.data.isEmpty with
      | true => simp [processImages, pureImages, hok, hemp, ih]
      | false => simp [processImages, pureImages, hok, hemp, ih]

lemma extractLoop_fst (ft : String) :
    ∀ (slots : List (Option FitzPage)) (i : Nat) (am : AMState),
      (extractLoop ft i slots am).1 = pagesPure ft i slots := by
  intro slots
  induction slots with
  | nil => intro i am; rfl
  | cons s rest ih =>
    intro i am
    cases s with
    | none => simp [extractLoop, pagesPure, buildPage, ih]
    | some page => simp [extractLoop, pagesPure, buildPage, ih, processImages_fst]

lemma pagesPure_length (ft : String) :
    ∀ (slots : List (Option FitzPage)) (i : Nat),
      (pagesPure ft i slots).length = slots.length := by
  intro slots
  induction slots with
  | nil => intro i; rfl
  | cons s rest ih => intro i; simp [pagesPure, ih]

lemma pagesPure_get? (ft : String) :
    ∀ (slots : List (Option FitzPage)) (i j : Nat),
      (pagesPure ft i slots).get? j = (slots.get? j).map (buildPage ft (i + j)) := by
  intro slots
  induction slots with
  | nil => intro i j; simp [pagesPure]
  | cons s rest ih =>
    intro i j
    cases j with
    | zero => simp [pagesPure]
    | succ k =>
      simp only [pagesPure, List.get?_cons_succ, ih (i + 1) k]
      have : i + 1 + k = i + (k + 1) := by omega
      rw [this]

lemma buildPage_number (ft : String) (i : Nat) (s : Option FitzPage) :
    (buildPage ft i s).number = i + 1 := by
  cases s <;> rfl

lemma extract_pages_eq (pdf_path : String) (doc : FitzDoc)
    (token : Option String) (validate : Bool) (am : AMState) :
    (extract pdf_path doc token validate am).1.pages
      = pagesPure (token.getD (md5Hex pdf_path)) 0 doc.slots := by
  simp [extract, extractLoop_fst]

lemma validateLoop_count :
    ∀ (slots : List (Option FitzPage)) (i : Nat),
      (validateLoop i slots).2 = countNonError i slots := by
  intro slots
  induction slots with
  | nil => intro i; rfl
  | cons s rest ih =>
    intro i
    cases s with
    | none => simp [validateLoop, countNonError, slotStatus, ih]
    | some page =>
      simp only [validateLoop, countNonError, slotStatus]
      by_cases h : (validate_page page (i + 1) (pyStrip page.rawText)).1
          = ValidationStatus.error
      · simp [h, ih]
      · simp [h, ih, Nat.add_comm]

lemma countNonError_le :
    ∀ (slots : List (Option FitzPage)) (i : Nat),
      countNonError i slots ≤ slots.length := by
  intro slots
  induction slots with
  | nil => intro i; simp [countNonError]
  | cons s rest ih =>
    intro i
    simp only [countNonError, List.length_cons]
    have := ih (i + 1)
    by_cases h : slotStatus i s ≠ ValidationStatus.error
    · simp [h]; omega
    · simp [h]; omega

lemma pureImages_mem (ft : String) (n : Nat) :
    ∀ (imgs : List FitzImage) (pos : Nat) (pi : PageImage),
      pi ∈ pureImages ft n pos imgs →
      ∃ (k : Nat) (img : FitzImage),
        imgs.get? k = some img ∧ img.extractOk = true ∧ img.data ≠ [] ∧
        pi.id = ft ++ "_p" ++ toString n ++ "_" ++ toString (pos + k) ++ "."
          ++ (if img.ext == "" then "png" else img.ext) := by
  intro imgs
  induction imgs with
  | nil => intro pos pi h; simp [pureImages] at h
  | cons img rest ih =>
    intro pos pi h
    cases hok : img.extractOk with
    | false =>
      rw [pureImages, hok] at h
      simp only [Bool.false_eq_true, if_false] at h
      obtain ⟨k, img2, hget, hok2, hdata, hid⟩ := ih (pos + 1) pi h
      refine ⟨k + 1, img2, by simpa using hget, hok2, hdata, ?_⟩
      have : pos + (k + 1) = pos + 1 + k := by omega
      rw [this, hid]
    | true =>
      cases hemp : img.data.isEmpty with
      | true =>
        rw [pureImages, hok, hemp] at h
        simp only [if_true] at h
        obtain ⟨k, img2, hget, hok2, hdata, hid⟩ := ih (pos + 1) pi h
        refine ⟨k + 1, img2, by simpa using hget, hok2, hdata, ?_⟩
        have : pos + (k + 1) = pos + 1 + k := by omega
        rw [this, hid]
      | false =>
        rw [pureImages, hok, hemp] at h
        simp only [if_true, Bool.false_eq_true, if_false, List.mem_cons] at h
        rcases h with h | h
        · refine ⟨0, img, rfl, hok, ?_, ?_⟩
          · intro hnil
            rw [hnil] at hemp
            simp at hemp
          · rw [h]
            simp
        · obtain ⟨k, img2, hget, hok2, hdata, hid⟩ := ih (pos + 1) pi h
          refine ⟨k + 1, img2, by simpa using hget, hok2, hdata, ?_⟩
          have : pos + (k + 1) = pos + 1 + k := by omega
          rw [this, hid]

/-! ### Concrete cache runs used by the capacity / LRU scenarios -/

/-- A fresh cache with `max_items = 2`, as in the spec's LRU scenario. -/
def amScenario0 : AMState := AMState.mk "/tmp" 2 [] []

/-- After `register("A")`. -/
def amA : AMState := (amScenario0.register "A" [1] "png" "image/png").2

/-- After `register("A"); register("B")`. -/
def amAB : AMState := (amA.register "B" [1] "png" "image/png").2

/-- After `register("A"); register("B"); register("C")` — a third distinct id
on a 2-capacity cache. -/
def amABC : AMState := (amAB.register "C" [1] "png" "image/png").2

/-- After `register("A"); register("B"); get("B")`. -/
def amGB : AMState := (amAB.get "B").2

/-- After `register("A"); register("B"); get("B"); register("C")`. -/
def amGBC : AMState := (amGB.register "C" [1] "png" "image/png").2

/-- After `register("A"); register("B"); get("A")`. -/
def amGA : AMState := (amAB.get "A").2

/-- After `register("A"); register("B"); get("A"); register("C")`. -/
def amGAC : AMState := (amGA.register "C" [1] "png" "image/png").2

/-! ### Cache lemmas -/

lemma evictLoop_length_le (m : Nat) :
    ∀ (l : List (String × AssetRecord)) (fs : List String),
      ((evictLoop m l fs).1).length ≤ m := by
  intro l
  induction l with
  | nil => intro fs; simp [evictLoop]
  | cons kv rest ih =>
    intro fs
    obtain ⟨k, v⟩ := kv
    by_cases h : rest.length + 1 > m
    · simpa [evictLoop, h] using ih _
    · simp only [evictLoop, h, if_false]
      simpa using Nat.le_of_not_lt h

lemma register_registry_length_le (am : AMState) (image_id : String)
    (data : List Nat) (extension content_type : String) :
    ((AMState.register am image_id data extension content_type).2).registry.length
      ≤ am.max_items := by
  simp only [AMState.register]
  exact evictLoop_length_le _ _ _

lemma getLast?_append_singleton {α : Type} (l : List α) (a : α) :
    (l ++ [a]).getLast? = some a :=
  List.getLast?_concat l

/-- C5: `has_content(page)` holds exactly when the trimmed text is non-empty
or the image list is non-empty. -/
theorem has_content_iff (p : PageContent) :
    p.has_content = true ↔ (pyStrip p.text ≠ "" ∨ p.images ≠ []) := by
  simp [PageContent.has_content, List.isEmpty_iff]

/-- Witness for C5 at a concrete page with text and no images. -/
theorem has_content_iff_witness :
    (PageContent.mk 1 "hi" [] none ValidationStatus.valid).has_content = true :=
  (has_content_iff (PageContent.mk 1 "hi" [] none ValidationStatus.valid)).mpr
    (Or.inl (by decide))

/-- C6: after every `register` at most `max_items` entries are resident; in
the concrete scenario (capacity 2, three distinct ids A, B, C) exactly two
entries remain, the least-recently-used id A is the one evicted, and A's
backing file has been deleted in the same eviction step while B's and C's
files still exist. -/
theorem cache_capacity_bound :
    (∀ (am : AMState) (image_id : String) (data : List Nat)
        (ext content_type : String),
        ((AMState.register am image_id data ext content_type).2).registry.length
          ≤ am.max_items) ∧
    (amABC.registry.length = 2 ∧
     amABC.registry.map Prod.fst = ["B", "C"] ∧
     amABC.registry.lookup "A" = none ∧
     "/tmp/A" ∉ amABC.fs ∧ "/tmp/B" ∈ amABC.fs ∧ "/tmp/C" ∈ amABC.fs) := by
  refine ⟨fun am id data ext ct => register_registry_length_le am id data ext ct, ?_⟩
  decide

/-- Counterexample to C7's scenario: with capacity 2, after
`register(A); register(B); get(B); register(C)` the id C is resident and A
is the entry that was evicted — the `get(B)` changed nothing (B was already
most recent), and C is never "evicted first when it arrives". -/
theorem lru_get_scenario_cex :
    amGBC.registry.lookup "C" = some (AssetRecord.mk "/tmp/C" "image/png") ∧
    amGBC.registry.lookup "A" = none ∧
    amGBC.registry.map Prod.fst = ["B", "C"] := by
  decide

/-- C7 (amended): a `get` hit returns the entry, moves it to the
most-recently-used end (true LRU) and touches nothing else; in the concrete
capacity-2 scenario registering A, B, C evicts A, a `get(B)` before
registering C leaves that outcome unchanged (B was already most recent),
while a `get(A)` before registering C refreshes A so that B is evicted
instead (and B's backing file deleted). -/
theorem lru_get_refreshes :
    (∀ (am : AMState) (image_id : String) (v : AssetRecord),
        am.registry.lookup image_id = some v →
          (am.get image_id).1 = some v ∧
          ((am.get image_id).2).registry.getLast? = some (image_id, v) ∧
          ((am.get image_id).2).fs = am.fs) ∧
    (amABC.registry.map Prod.fst = ["B", "C"] ∧
     amGBC.registry.map Prod.fst = ["B", "C"] ∧
     amGAC.registry.map Prod.fst = ["A", "C"] ∧
     "/tmp/B" ∉ amGAC.fs ∧ "/tmp/A" ∈ amGAC.fs ∧ "/tmp/C" ∈ amGAC.fs) := by
  constructor
  · intro am image_id v h
    have hget : am.get image_id =
        (some v, AMState.mk am.base_dir am.max_items
          (odMoveToEnd image_id am.registry) am.fs) := by
      unfold AMState.get
      rw [h]
    have hmv : odMoveToEnd image_id am.registry =
        am.registry.filter (fun p => p.1 ≠ image_id) ++ [(image_id, v)] := by
      unfold odMoveToEnd
      rw [h]
    rw [hget, hmv]
    exact ⟨rfl, getLast?_append_singleton _ _, rfl⟩
  · decide

/-- Witness for C7 at the concrete two-entry cache, hitting the
least-recently-used id A. -/
theorem lru_get_refreshes_witness :
    (amAB.get "A").1 = some (AssetRecord.mk "/tmp/A" "image/png") ∧
    ((amAB.get "A").2).registry.getLast? =
      some ("A", AssetRecord.mk "/tmp/A" "image/png") ∧
    ((amAB.get "A").2).fs = amAB.fs :=
  lru_get_refreshes.1 amAB "A" (AssetRecord.mk "/tmp/A" "image/png") (by decide)

/-- C8: `get` on an unregistered id returns not-found and leaves the whole
state (registry order and filesystem) unchanged; totality of the model
reflects that the source raises nothing on this path. -/
theorem get_miss_noop (am : AMState) (image_id : String)
    (h : am.registry.lookup image_id = none) :
    am.get image_id = (none, am) := by
  simp [AMState.get, h]

/-- Witness for C8: a miss on the concrete two-entry cache. -/
theorem get_miss_noop_witness : amAB.get "Z" = (none, amAB) :=
  get_miss_noop amAB "Z" (by decide)

/-! ## Concrete document fixtures -/

/-- A well-behaved embedded image. -/
def wImg : FitzImage := FitzImage.mk true [7] "png" (some 10) (some 20)

/-- A renderable page with empty text and one image. -/
def wPage : FitzPage := FitzPage.mk true "" [wImg]

/-- A two-page document whose second page hard-faults on load. -/
def wDoc : FitzDoc := FitzDoc.mk [some wPage, none]

/-- A fresh default-capacity asset cache. -/
def wAM : AMState := AMState.mk "/tmp/bookaudio_pdf_assets" 200 [] []

/-- The `PageImage` the pipeline produces for `wImg` on page 1 under token
"tok". -/
def wPI : PageImage := PageImage.mk "tok_p1_0.png"
  "/api/convert/file/image/tok_p1_0.png" (some 10) (some 20) "image/png"

/-- The `PageContent` the pipeline produces for `wPage` as page 1. -/
def wPage0 : PageContent := PageContent.mk 1 "" [wPI]
  (some (PageMetadata.mk 0 0 true (some 0))) ValidationStatus.valid

/-- A one-page document that is entirely valid. -/
def wDocOK : FitzDoc := FitzDoc.mk [some (FitzPage.mk true "hi" [])]

/-! ## Claim theorems about the extraction pipeline -/

/-- C1: an extraction over an opened document yields exactly `page_count`
pages, numbered `1..page_count` contiguously in ascending order, and a slot
whose processing raises still contributes a page (empty text, no images,
zero metadata, ERROR status) while extraction continues with the rest. -/
theorem extract_pages_complete (pdf_path : String) (doc : FitzDoc)
    (token : Option String) (validate : Bool) (am : AMState) :
    ((extract pdf_path doc token validate am).1.pages.length
       = (extract pdf_path doc token validate am).1.page_count) ∧
    (∀ (j : Nat) (pg : PageContent),
        (extract pdf_path doc token validate am).1.pages.get? j = some pg →
          pg.number = j + 1) ∧
    (∀ j : Nat, doc.slots.get? j = some none →
        (extract pdf_path doc token validate am).1.pages.get? j
          = some (errorPageContent (j + 1))) := by
  refine ⟨?_, ?_, ?_⟩
  · rw [extract_pages_eq]
    simp [extract, pagesPure_length]
  · intro j pg hpg
    rw [extract_pages_eq, pagesPure_get?] at hpg
    cases hs : doc.slots.get? j with
    | none => rw [hs] at hpg; simp at hpg
    | some s =>
      rw [hs] at hpg
      simp only [Option.map_some'] at hpg
      have := buildPage_number (token.getD (md5Hex pdf_path)) (0 + j) s
      rw [Option.some_inj] at hpg
      rw [← hpg] at *
      omega
  · intro j hj
    rw [extract_pages_eq, pagesPure_get?, hj]
    simp [buildPage]

/-- Witness for C1: on the concrete document, the hard-faulting slot 1
still produces page 2 with the error shape. -/
theorem extract_pages_complete_witness :
    (extract "book.pdf" wDoc (some "tok") true wAM).1.pages.get? 1
      = some (errorPageContent 2) :=
  (extract_pages_complete "book.pdf" wDoc (some "tok") true wAM).2.2 1 rfl

/-- C2: `validate_document` counts exactly the pages not classified ERROR
(WARNING-only pages included), never counts more than `total_pages`, and
`is_valid` holds exactly when no issue has ERROR severity and every page was
counted. -/
theorem validate_document_invariants (doc : FitzDoc) :
    ((validate_document doc).validated_pages = countNonError 0 doc.slots) ∧
    ((validate_document doc).validated_pages ≤ (validate_document doc).total_pages) ∧
    ((validate_document doc).is_valid = true ↔
      ((∀ issue ∈ (validate_document doc).issues,
          issue.severity ≠ IssueSeverity.error) ∧
       (validate_document doc).validated_pages = (validate_document doc).total_pages)) := by
  refine ⟨?_, ?_, ?_⟩
  · simp [validate_document, validateLoop_count]
  · simp only [validate_document]
    rw [validateLoop_count]
    exact countNonError_le doc.slots 0
  · simp only [validate_document, Bool.and_eq_true, Bool.not_eq_true',
      List.any_eq_false, beq_iff_eq]

/-- Witness for C2: the all-valid one-page document is reported valid via
the right-to-left direction of the invariant. -/
theorem validate_document_invariants_witness :
    (validate_document wDocOK).is_valid = true :=
  (validate_document_invariants wDocOK).2.2.mpr ⟨by decide, by decide⟩

/-- C3: one validation pass yields exactly one status and at most one issue
(the return type carries at most one), the checks running in the fixed
order render-probe, encoding, emptiness, with the first non-VALID outcome
winning: render failure gives ERROR/"corrupt"; otherwise a replacement
character gives WARNING/"encoding"; otherwise empty text with no images
gives WARNING/"missing"; otherwise VALID with no issue. -/
theorem validate_page_order (page : FitzPage) (n : Nat) (text : String) :
    (page.renderOk = false →
        validate_page page n text = (ValidationStatus.error,
          some (ValidationIssue.mk n "corrupt"
            ("Page " ++ toString n ++ " validation failed") IssueSeverity.error))) ∧
    (page.renderOk = true → pyContains text replacementChar = true →
        validate_page page n text = (ValidationStatus.warning,
          some (ValidationIssue.mk n "encoding"
            ("Page " ++ toString n ++ " may have encoding issues")
            IssueSeverity.warning))) ∧
    (page.renderOk = true → pyContains text replacementChar = false →
        pyStrip text = "" → page.images = [] →
        validate_page page n text = (ValidationStatus.warning,
          some (ValidationIssue.mk n "missing"
            ("Page " ++ toString n ++ " appears to be empty")
            IssueSeverity.warning))) ∧
    (page.renderOk = true → pyContains text replacementChar = false →
        (pyStrip text ≠ "" ∨ page.images ≠ []) →
        validate_page page n text = (ValidationStatus.valid, none)) := by
  refine ⟨?_, ?_, ?_, ?_⟩
  · intro h
    simp [validate_page, h]
  · intro h1 h2
    simp [validate_page, h1, h2]
  · intro h1 h2 h3 h4
    simp [validate_page, h1, h2, h3, h4]
  · intro h1 h2 h3
    have hcond : ((pyStrip text == "") && page.images.isEmpty) = false := by
      rcases h3 with h | h
      · simp [beq_eq_false_iff_ne, h]
      · simp [List.isEmpty_iff, h]
    simp [validate_page, h1, h2, hcond]

/-- Witness for C3: a page failing the render probe is classified
ERROR/"corrupt". -/
theorem validate_page_order_witness :
    validate_page (FitzPage.mk false "x" []) 1 "x"
      = (ValidationStatus.error, some (ValidationIssue.mk 1 "corrupt"
          ("Page " ++ toString 1 ++ " validation failed") IssueSeverity.error)) :=
  (validate_page_order (FitzPage.mk false "x" []) 1 "x").1 rfl

/-- Counterexample to C4: a page produced by the hard-fault path carries
`reading_time = None` (the dataclass default, line 340), not `0` as the
claim demands for a zero word count. -/
theorem reading_time_fault_cex :
    ((extract "book.pdf" (FitzDoc.mk [none]) (some "tok") true wAM).1.pages.getD 0
        (errorPageContent 1)).metadata
      = some (PageMetadata.mk 0 0 false none) ∧
    some (PageMetadata.mk 0 0 false none)
      ≠ some (PageMetadata.mk 0 0 false (some 0)) := by
  exact ⟨by decide, by decide⟩

/-- C4 (amended): whenever a result page's metadata carries a reading time
(every normal-path page does), it equals `(word_count / 200) * 60` seconds
and is `0` for a zero word count; a hard-fault page instead carries
zero-valued counts with `reading_time` left unset (`None`). -/
theorem reading_time_formula (pdf_path : String) (doc : FitzDoc)
    (token : Option String) (validate : Bool) (am : AMState) :
    (∀ (j : Nat) (pg : PageContent) (m : PageMetadata) (rt : ℚ),
        (extract pdf_path doc token validate am).1.pages.get? j = some pg →
        pg.metadata = some m → m.reading_time = some rt →
          (rt = (m.word_count : ℚ) / AVERAGE_READING_SPEED * 60 ∧
           (m.word_count = 0 → rt = 0))) ∧
    (∀ j : Nat, doc.slots.get? j = some none →
        (extract pdf_path doc token validate am).1.pages.get? j
          = some (errorPageContent (j + 1))) := by
  constructor
  · intro j pg m rt hpg hm hrt
    rw [extract_pages_eq, pagesPure_get?] at hpg
    cases hs : doc.slots.get? j with
    | none => rw [hs] at hpg; simp at hpg
    | some s =>
      rw [hs] at hpg
      simp only [Option.map_some', Option.some_inj] at hpg
      cases s with
      | none =>
        rw [← hpg] at hm
        simp only [buildPage, errorPageContent] at hm
        rw [Option.some_inj] at hm
        rw [← hm] at hrt
        simp at hrt
      | some page =>
        rw [← hpg] at hm
        simp only [buildPage, calculate_page_metadata] at hm
        rw [Option.some_inj] at hm
        rw [← hm] at hrt
        simp only at hrt
        rw [← hm]
        simp only
        by_cases hwc : (pyWords (pyStrip page.rawText)).length > 0
        · rw [if_pos hwc] at hrt
          rw [Option.some_inj] at hrt
          refine ⟨hrt.symm ▸ rfl, ?_⟩
          intro h0
          omega
        · rw [if_neg hwc] at hrt
          rw [Option.some_inj] at hrt
          have hwc0 : (pyWords (pyStrip page.rawText)).length = 0 := by omega
          constructor
          · rw [← hrt, hwc0]
            norm_num
          · intro _
            exact hrt.symm
  · intro j hj
    rw [extract_pages_eq, pagesPure_get?, hj]
    simp [buildPage]

/-- Witness for C4 at the concrete zero-word page with an image. -/
theorem reading_time_formula_witness :
    ((0 : ℚ) = ((0 : Nat) : ℚ) / AVERAGE_READING_SPEED * 60 ∧
     ((0 : Nat) = 0 → (0 : ℚ) = 0)) :=
  (reading_time_formula "book.pdf" wDoc (some "tok") true wAM).1 0 wPage0
    (PageMetadata.mk 0 0 true (some 0)) 0 (by decide) (by decide) (by decide)

/-- The image-id pattern exactly as the spec words it,
`{document token}_{page number}_{index}_{extension}`, for comparison with
the id the source actually builds. -/
def specImageId (token : String) (page_number index : Nat)
    (extension : String) : String :=
  token ++ "_" ++ toString page_number ++ "_" ++ toString index ++ "_" ++ extension

/-- Counterexample to C9: the id the pipeline assigns to the first image of
page 1 under token "tok" is "tok_p1_0.png", which is not the spec's literal
pattern `{token}_{page}_{index}_{extension}` (that would be "tok_1_0_png"). -/
theorem image_id_pattern_cex :
    ((extract "book.pdf" wDoc (some "tok") true wAM).1.pages.getD 0
        (errorPageContent 1)).images.map PageImage.id = ["tok_p1_0.png"] ∧
    specImageId "tok" 1 0 "png" = "tok_1_0_png" ∧
    ("tok_p1_0.png" : String) ≠ specImageId "tok" 1 0 "png" := by
  exact ⟨by decide, by decide, by decide⟩

/-- C9 (amended): every image attached to a result page takes its id
deterministically from the resolved document token (the caller's token or
the default path digest), the 1-based page number, the image's position in
the page's image list, and the normalized extension, joined as
`{token}_p{page}_{index}.{extension}`. -/
theorem image_id_pattern (pdf_path : String) (doc : FitzDoc)
    (token : Option String) (validate : Bool) (am : AMState) :
    ∀ (j : Nat) (pg : PageContent) (pi : PageImage),
      (extract pdf_path doc token validate am).1.pages.get? j = some pg →
      pi ∈ pg.images →
      ∃ (page : FitzPage) (pos : Nat) (img : FitzImage),
        doc.slots.get? j = some (some page) ∧
        page.images.get? pos = some img ∧
        img.extractOk = true ∧ img.data ≠ [] ∧
        pi.id = (token.getD (md5Hex pdf_path)) ++ "_p" ++ toString (j + 1) ++ "_"
          ++ toString pos ++ "." ++ (if img.ext == "" then "png" else img.ext) := by
  intro j pg pi hpg hpi
  rw [extract_pages_eq, pagesPure_get?] at hpg
  cases hs : doc.slots.get? j with
  | none => rw [hs] at hpg; simp at hpg
  | some s =>
    rw [hs] at hpg
    simp only [Option.map_some', Option.some_inj] at hpg
    cases s with
    | none =>
      rw [← hpg] at hpi
      simp [buildPage, errorPageContent] at hpi
    | some page =>
      rw [← hpg] at hpi
      simp only [buildPage] at hpi
      obtain ⟨k, img, hget, hok, hdata, hid⟩ :=
        pureImages_mem (token.getD (md5Hex pdf_path)) (0 + j + 1)
          page.images 0 pi hpi
      refine ⟨page, k, img, rfl, hget, hok, hdata, ?_⟩
      rw [hid]
      have h1 : (0 : Nat) + j + 1 = j + 1 := by omega
      have h2 : (0 : Nat) + k = k := by omega
      rw [h1, h2]

/-- Witness for C9 at the concrete one-image page. -/
theorem image_id_pattern_witness :
    ∃ (page : FitzPage) (pos : Nat) (img : FitzImage),
      wDoc.slots.get? 0 = some (some page) ∧
      page.images.get? pos = some img ∧
      img.extractOk = true ∧ img.data ≠ [] ∧
      wPI.id = ((some "tok").getD (md5Hex "book.pdf")) ++ "_p" ++ toString (0 + 1)
        ++ "_" ++ toString pos ++ "." ++ (if img.ext == "" then "png" else img.ext) :=
  image_id_pattern "book.pdf" wDoc (some "tok") true wAM 0 wPage0 wPI
    (by decide) (by decide)

/-- C10: `get_page_count` is total (the source method never raises): an
unopenable document gives `(0, false)`; an empty document gives its count
with `reliable = false`; a failing first-or-last-page probe gives the count
with `reliable = false`; otherwise the count is reported reliable. -/
theorem get_page_count_cases (file : Option FitzDoc) :
    (file = none → get_page_count file = (0, false)) ∧
    (∀ doc : FitzDoc, file = some doc →
      ((get_page_count file).1 = doc.slots.length ∧
       (doc.slots.length = 0 → get_page_count file = (0, false)) ∧
       (slotLoads doc 0 = false → (get_page_count file).2 = false) ∧
       (1 < doc.slots.length → slotLoads doc (doc.slots.length - 1) = false →
           (get_page_count file).2 = false) ∧
       (0 < doc.slots.length → slotLoads doc 0 = true →
         (1 < doc.slots.length → slotLoads doc (doc.slots.length - 1) = true) →
             (get_page_count file).2 = true))) := by
  constructor
  · intro h
    rw [h]
    rfl
  · intro doc h
    subst h
    refine ⟨rfl, ?_, ?_, ?_, ?_⟩
    · intro h0
      simp [get_page_count, h0]
    · intro hfirst
      simp [get_page_count, hfirst]
    · intro hgt hlast
      have h0 : 0 < doc.slots.length := by omega
      simp [get_page_count, h0, hgt, hlast]
    · intro h0 hfirst hlast
      by_cases hgt : 1 < doc.slots.length
      · simp [get_page_count, h0, hgt, hfirst, hlast hgt]
      · simp [get_page_count, h0, hgt, hfirst]

/-- Witness for C10: the concrete document with a hard-faulting last page
is counted but flagged unreliable, and an unopenable file gives `(0, false)`. -/
theorem get_page_count_cases_witness :
    (get_page_count (some wDoc)).2 = false ∧
    get_page_count (none : Option FitzDoc) = (0, false) :=
  ⟨((get_page_count_cases (some wDoc)).2 wDoc rfl).2.2.2.1 (by decide) (by decide),
   (get_page_count_cases (none : Option FitzDoc)).1 rfl⟩

end PdfExtractor
